import Mathlib

/-!
Verification of `src/usr.sbin/httpd/structptrs.py`, a gdb helper that
enumerates pointer-typed fields inside the in-memory region of a C
struct without ever dereferencing a pointer.

Shallow embedding notes.  The script consumes gdb's type/value
introspection API, which is external to the repository.  Types are
embedded as an inductive `GType` exposing exactly the queries the
script performs (`strip_typedefs`, `code`, `tag`, `str`, `sizeof`,
`range`, `target`, `fields`); values are embedded as `GValue` carrying
the results of the fallible accesses the script guards with
`try/except` (`val[i]`, `val[f]`, `int(v)`), each modelled as an
`Option`.  A `none` in `elems`/`fieldVals` (or an index beyond the
list) models the corresponding access raising, `none` in `intRes`
models `int(v)` raising.  Output written with `gdb.write` is captured
as a list of structured `Line`s together with a rendering function
reproducing the exact strings; the running `self.count` is threaded
explicitly.
-/

/-- gdb types, restricted to the queries `structptrs.py` makes.
`typedefed` is a typedef layer that `strip_typedefs` resolves; every
constructor carries `str(t)` (`display`) and `t.sizeof` (`sz`, `none`
modelling the attribute raising).  `arrayTy` carries `t.target()` and
the result of `t.range()` (`none` modelling the call raising).  A
struct/union field is the triple a gdb `Field` provides the script:
`f.name` (absent for anonymous members), the `artificial` flag,
`f.type`. -/
inductive GType : Type where
  | typedefed (display : String) (underlying : GType)
  | ptrTy (tag : Option String) (display : String) (sz : Option Int)
  | structTy (tag : Option String) (display : String) (sz : Option Int)
      (fields : List (Option String × Bool × GType))
  | unionTy (tag : Option String) (display : String) (sz : Option Int)
      (fields : List (Option String × Bool × GType))
  | arrayTy (tag : Option String) (display : String) (sz : Option Int)
      (elem : GType) (rng : Option (Int × Int))
  | scalarTy (tag : Option String) (display : String) (sz : Option Int)

/-- A gdb struct/union field as the script reads it. -/
abbrev GField := Option String × Bool × GType

/-- `str(t)`. -/
def GType.display : GType → String
  | .typedefed d _ => d
  | .ptrTy _ d _ => d
  | .structTy _ d _ _ => d
  | .unionTy _ d _ _ => d
  | .arrayTy _ d _ _ _ => d
  | .scalarTy _ d _ => d

/-- `t.tag` (only ever queried on stripped types by the script). -/
def GType.tag : GType → Option String
  | .typedefed _ _ => none
  | .ptrTy tg _ _ => tg
  | .structTy tg _ _ _ => tg
  | .unionTy tg _ _ _ => tg
  | .arrayTy tg _ _ _ _ => tg
  | .scalarTy tg _ _ => tg

/-- `t.sizeof`, resolving through typedef layers as gdb does;
`none` models the attribute access raising. -/
def sizeofRes : GType → Option Int
  | .typedefed _ u => sizeofRes u
  | .ptrTy _ _ s => s
  | .structTy _ _ s _ => s
  | .unionTy _ _ s _ => s
  | .arrayTy _ _ s _ _ => s
  | .scalarTy _ _ s => s

/-- `strip(t)`: `t.strip_typedefs()`, resolving all typedef layers. -/
def strip : GType → GType
  | .typedefed _ u => strip u
  | t => t

/-- `is_ptr(t)`: the stripped type's code is `TYPE_CODE_PTR`. -/
def is_ptr (t : GType) : Bool :=
  match strip t with
  | .ptrTy .. => true
  | _ => false

/-- `is_struct(t)`. -/
def is_struct (t : GType) : Bool :=
  match strip t with
  | .structTy .. => true
  | _ => false

/-- `is_union(t)`. -/
def is_union (t : GType) : Bool :=
  match strip t with
  | .unionTy .. => true
  | _ => false

/-- `is_array(t)`. -/
def is_array (t : GType) : Bool :=
  match strip t with
  | .arrayTy .. => true
  | _ => false

/-- `typename(t)`: `t.tag or str(t)` on the stripped type; Python's
`or` falls through both on `None` and on the empty string. -/
def typename (t : GType) : String :=
  let t := strip t
  match t.tag with
  | some s => if s = "" then t.display else s
  | none => t.display

/-- `array_len(t)`: element count from `t.range()` when it succeeds,
else the sizeof quotient fallback, else `None`.  Python's `//` on the
two positive operands agrees with Lean's `Int` division. -/
def array_len (t : GType) : Option Int :=
  match strip t with
  | .arrayTy _ _ tsz elem rng =>
    match rng with
    | some (lo, hi) => some (hi - lo + 1)
    | none =>
      match sizeofRes elem, tsz with
      | some esz, some asz =>
        if 0 < esz ∧ 0 < asz then some (asz / esz) else none
      | _, _ => none
  | _ => none

/-- gdb values as the script reads them: the static type (`val.type`),
the result of `int(v)` (`none` = raises), `str(v)`, and the sub-values
returned by `val[i]` / `val[f]` in positional order (a `none` entry,
or an index past the end, models the access raising). -/
inductive GValue : Type where
  | mk (ty : GType) (intRes : Option Int) (display : String)
      (elems : List (Option GValue)) (fieldVals : List (Option GValue))

/-- `val.type`. -/
def GValue.ty : GValue → GType
  | .mk t _ _ _ _ => t

/-- Result of `int(v)`. -/
def GValue.intRes : GValue → Option Int
  | .mk _ r _ _ _ => r

/-- `str(v)`. -/
def GValue.display : GValue → String
  | .mk _ _ d _ _ => d

/-- The array-element sub-values `val[i]`, positionally. -/
def GValue.elems : GValue → List (Option GValue)
  | .mk _ _ _ es _ => es

/-- The field sub-values `val[f]`, positionally aligned with the
stripped type's field list. -/
def GValue.fieldVals : GValue → List (Option GValue)
  | .mk _ _ _ _ fv => fv

/-- The lowercase hex digit for `n < 16`, as produced by Python's
`"{:x}".format`. -/
def hexDigitChar (n : Nat) : Char :=
  if n < 10 then Char.ofNat (48 + n) else Char.ofNat (87 + n)

/-- Hex digit list of `n`, most significant first, with explicit fuel
(the value itself bounds the number of digits, so `natHexChars` below
runs it with fuel `n`). -/
def natHexCharsAux : Nat → Nat → List Char
  | 0, _ => []
  | fuel + 1, n =>
    if n = 0 then [] else natHexCharsAux fuel (n / 16) ++ [hexDigitChar (n % 16)]

/-- Hex digit string of `n`, most significant first, empty for `0`. -/
def natHexChars (n : Nat) : List Char := natHexCharsAux n n

/-- `"{:x}".format(n)` for `n : Nat`. -/
def natHex (n : Nat) : String :=
  if n = 0 then "0" else String.mk (natHexChars n)

/-- The sixteen lowercase hexadecimal digit characters. -/
def hexDigitsLower : List Char := "0123456789abcdef".data

/-- Numeric value of a lowercase hexadecimal digit character. -/
def hexCharVal (ch : Char) : Nat :=
  if 97 ≤ ch.toNat then ch.toNat - 87 else ch.toNat - 48

/-- Numeric value of a lowercase hexadecimal digit string. -/
def hexVal (s : String) : Nat :=
  s.data.foldl (fun a ch => 16 * a + hexCharVal ch) 0

/-- `"{:x}".format(n)` for `n : Int` (Python renders a negative
argument as a minus sign before the magnitude's digits). -/
def intHex (n : Int) : String :=
  if n < 0 then "-" ++ natHex n.natAbs else natHex n.toNat

/-- `fmt_addr(v)`: `"0x{:x}".format(int(v))`, falling back to
`str(v)` when the conversion raises. -/
def fmt_addr (v : GValue) : String :=
  match v.intRes with
  | some n => "0x" ++ intHex n
  | none => v.display

/-- One `gdb.write` call of the walker, structured.  `report` is the
pointer Report Record (path, type name, formatted address); the other
three are the diagnostic lines. -/
inductive Line : Type where
  | report (path tyName addr : String)
  | lenUnknown (path elemTyName : String)
  | inaccElem (path : String) (i : Nat)
  | inaccField (path : String)
deriving DecidableEq, Repr

/-- The exact string each `gdb.write` call produces. -/
def renderLine : Line → String
  | .report p ty addr => p ++ " : " ++ ty ++ " = " ++ addr ++ "\n"
  | .lenUnknown p ety =>
      p ++ " : <array of " ++ ety ++ "> (length unknown; skipped)\n"
  | .inaccElem p i => p ++ "[" ++ toString i ++ "] : <inaccessible element>\n"
  | .inaccField p => p ++ " : <inaccessible>\n"

/-- Whether a `Line` is a pointer Report Record. -/
def isReport : Line → Bool
  | .report .. => true
  | _ => false

/-- `f.name if f.name else "<anon>"` (Python treats the empty string
as falsy too). -/
def fieldDisplayName (nm : Option String) : String :=
  match nm with
  | some s => if s = "" then "<anon>" else s
  | none => "<anon>"

/-- `StructPtrEnumerator._report_pointer`: write one Report Record and
increment the count. -/
def report_pointer (pval : GValue) (ptype : GType) (path : String)
    (c : Nat) : List Line × Nat :=
  ([Line.report path (typename ptype) (fmt_addr pval)], c + 1)

mutual

/-- `StructPtrEnumerator._walk_value`: dispatch on the stripped type of
`val`; report pointers, iterate arrays, walk struct/union fields,
ignore anything else.  `c` is the current `self.count`; the returned
list is the sequence of `gdb.write` calls the invocation performs. -/
def walk_value : GValue → String → Nat → List Line × Nat
  | v@(.mk ty _ _ elems fvals), path, c =>
    let t := strip ty
    if is_ptr t then
      report_pointer v t path c
    else
      match t with
      | .arrayTy _ _ _ elem _ =>
        match array_len t with
        | none => ([Line.lenUnknown path (typename elem)], c)
        | some n => walk_elems elems path 0 n.toNat c
      | .structTy _ _ _ fs => walk_struct_fields fs fvals path c
      | .unionTy _ _ _ fs => walk_union_fields fs fvals path c
      | _ => ([], c)
termination_by v _ _ => (sizeOf v, 0)

/-- The `for i in range(n)` loop of the array branch: `l` holds the
sub-values still ahead positionally, `i` is the current index, `r` the
number of indices still to visit.  An exhausted list or a `none` entry
is `val[i]` raising: one `<inaccessible element>` line, `continue`. -/
def walk_elems : List (Option GValue) → String → Nat → Nat → Nat →
    List Line × Nat
  | _, _, _, 0, c => ([], c)
  | [], path, i, r + 1, c =>
    let (ls, c') := walk_elems [] path (i + 1) r c
    (Line.inaccElem path i :: ls, c')
  | none :: rest, path, i, r + 1, c =>
    let (ls, c') := walk_elems rest path (i + 1) r c
    (Line.inaccElem path i :: ls, c')
  | some v :: rest, path, i, r + 1, c =>
    let (ls1, c1) := walk_value v (path ++ "[" ++ toString i ++ "]") c
    let (ls2, c2) := walk_elems rest path (i + 1) r c1
    (ls1 ++ ls2, c2)
termination_by l _ _ r _ => (sizeOf l, r)

/-- The struct branch's `for f in t.fields()` loop, walking the field
list and the positional sub-values together.  An `artificial` field is
skipped (its value slot is still consumed positionally, but `val[f]`
is never attempted); a failing `val[f]` yields one `<inaccessible>`
line and `continue`; a pointer field is reported directly; an
aggregate field is recursed into; anything else is ignored. -/
def walk_struct_fields : List GField → List (Option GValue) →
    String → Nat → List Line × Nat
  | [], _, _, c => ([], c)
  | f :: fs, [], path, c =>
    if f.2.1 then
      walk_struct_fields fs [] path c
    else
      let full := path ++ "." ++ fieldDisplayName f.1
      let (ls, c') := walk_struct_fields fs [] path c
      (Line.inaccField full :: ls, c')
  | f :: fs, none :: vrest, path, c =>
    if f.2.1 then
      walk_struct_fields fs vrest path c
    else
      let full := path ++ "." ++ fieldDisplayName f.1
      let (ls, c') := walk_struct_fields fs vrest path c
      (Line.inaccField full :: ls, c')
  | f :: fs, some fval :: vrest, path, c =>
    if f.2.1 then
      walk_struct_fields fs vrest path c
    else
      let ftype := strip f.2.2
      let full := path ++ "." ++ fieldDisplayName f.1
      if is_ptr ftype then
        let (ls1, c1) := report_pointer fval ftype full c
        let (ls2, c2) := walk_struct_fields fs vrest path c1
        (ls1 ++ ls2, c2)
      else if is_array ftype || is_struct ftype || is_union ftype then
        let (ls1, c1) := walk_value fval full c
        let (ls2, c2) := walk_struct_fields fs vrest path c1
        (ls1 ++ ls2, c2)
      else
        walk_struct_fields fs vrest path c
termination_by fs vs _ _ => (sizeOf vs, sizeOf fs)

/-- The union branch's member loop: identical to the struct branch
except that the source performs no `artificial` check here. -/
def walk_union_fields : List GField → List (Option GValue) →
    String → Nat → List Line × Nat
  | [], _, _, c => ([], c)
  | f :: fs, [], path, c =>
    let full := path ++ "." ++ fieldDisplayName f.1
    let (ls, c') := walk_union_fields fs [] path c
    (Line.inaccField full :: ls, c')
  | f :: fs, none :: vrest, path, c =>
    let full := path ++ "." ++ fieldDisplayName f.1
    let (ls, c') := walk_union_fields fs vrest path c
    (Line.inaccField full :: ls, c')
  | f :: fs, some fval :: vrest, path, c =>
    let ftype := strip f.2.2
    let full := path ++ "." ++ fieldDisplayName f.1
    if is_ptr ftype then
      let (ls1, c1) := report_pointer fval ftype full c
      let (ls2, c2) := walk_union_fields fs vrest path c1
      (ls1 ++ ls2, c2)
    else if is_array ftype || is_struct ftype || is_union ftype then
      let (ls1, c1) := walk_value fval full c
      let (ls2, c2) := walk_union_fields fs vrest path c1
      (ls1 ++ ls2, c2)
    else
      walk_union_fields fs vrest path c
termination_by fs vs _ _ => (sizeOf vs, sizeOf fs)

end

/-- The enumerator object; its only state is `self.count`. -/
structure StructPtrEnumerator : Type where
  count : Nat

/-- `StructPtrEnumerator.run`: reset `self.count` to 0, walk, then
write the trailing total line.  Returns the post-state, the walk's
lines, and the final `gdb.write` string. -/
def StructPtrEnumerator.run (_e : StructPtrEnumerator) (val : GValue)
    (root_name : String) : StructPtrEnumerator × List Line × String :=
  let reset : StructPtrEnumerator := { count := 0 }
  let (ls, c) := walk_value val root_name reset.count
  ({ count := c }, ls, "\nTotal pointer fields: " ++ toString c ++ "\n")

/-- `StructPtrsCommand.invoke`: `string_to_argv` and `parse_and_eval`
are gdb services, passed in as the results they produce (`Except.error`
modelling the call raising, converted to a `gdb.GdbError`).  On
success the command constructs a fresh enumerator and runs it with the
expression text as the root label. -/
def invoke (argvRes : Except String (List String))
    (parse_and_eval : String → Except String GValue) :
    Except String (StructPtrEnumerator × List Line × String) :=
  match argvRes with
  | .error e => .error e
  | .ok argv =>
    if argv.isEmpty then .error "usage: structptrs EXPR"
    else
      let expr := String.intercalate " " argv
      match parse_and_eval expr with
      | .error e => .error ("failed to evaluate EXPR: " ++ e)
      | .ok val => .ok (StructPtrEnumerator.run { count := 0 } val expr)

/-- Number of pointer Report Records in an output fragment. -/
def countReports (ls : List Line) : Nat := ls.countP isReport

/-! ### Concrete types and values used to instantiate the claims -/

/-- A plain `char *` pointer type. -/
def charPtrTyEx : GType := .ptrTy none "char *" (some 8)

/-- A two-element `char *[2]` array type with a known range. -/
def exbArrTy : GType :=
  .arrayTy none "char *[2]" (some 16) charPtrTyEx (some (0, 1))

/-- `struct S { char *a; char *b[2]; char *c; }`. -/
def exStructTy : GType := .structTy (some "S") "struct S" (some 32)
  [(some "a", false, charPtrTyEx), (some "b", false, exbArrTy),
   (some "c", false, charPtrTyEx)]

/-- A pointer value holding raw address `n`. -/
def exPtrVal (n : Int) : GValue := .mk charPtrTyEx (some n) "" [] []

/-- A `char *[2]` value with elements at addresses `n0`, `n1`. -/
def exArrVal (n0 n1 : Int) : GValue :=
  .mk exbArrTy none "" [some (exPtrVal n0), some (exPtrVal n1)] []

/-- A `struct S` value with pointer members at the given addresses. -/
def exStructVal (a b0 b1 cc : Int) : GValue :=
  .mk exStructTy none ""
    [] [some (exPtrVal a), some (exArrVal b0 b1), some (exPtrVal cc)]

/-- An array type whose range query fails, with no sizeof available:
its length is undeterminable. -/
def unkArrTy : GType :=
  .arrayTy none "int []" none (.scalarTy none "int" (some 4)) none

/-- A value of `unkArrTy`. -/
def unkArrVal : GValue := .mk unkArrTy none "" [] []

/-- A union whose only member is flagged compiler-synthetic
(`artificial`) and has pointer type. -/
def synthUnionTy : GType :=
  .unionTy (some "U") "union U" (some 8) [(some "p", true, charPtrTyEx)]

/-- A struct with exactly the same member list as `synthUnionTy`. -/
def synthStructTy : GType :=
  .structTy (some "U") "union U" (some 8) [(some "p", true, charPtrTyEx)]

/-- A value of `synthUnionTy` whose member holds address `0x1000`. -/
def synthUnionVal : GValue :=
  .mk synthUnionTy none "" [] [some (exPtrVal 4096)]

/-- A value of `synthStructTy` whose member holds address `0x1000`. -/
def synthStructVal : GValue :=
  .mk synthStructTy none "" [] [some (exPtrVal 4096)]

/-! ### Basic properties of the type queries -/

/-- `strip_typedefs` is idempotent. -/
theorem strip_strip : (t : GType) → strip (strip t) = strip t
  | .typedefed d u => by rw [strip]; exact strip_strip u
  | .ptrTy _ _ _ => rfl
  | .structTy _ _ _ _ => rfl
  | .unionTy _ _ _ _ => rfl
  | .arrayTy _ _ _ _ _ => rfl
  | .scalarTy _ _ _ => rfl

/-- `is_ptr` only looks at the stripped type. -/
theorem is_ptr_strip (t : GType) : is_ptr (strip t) = is_ptr t := by
  rw [is_ptr, is_ptr, strip_strip]

/-- `is_struct` only looks at the stripped type. -/
theorem is_struct_strip (t : GType) : is_struct (strip t) = is_struct t := by
  rw [is_struct, is_struct, strip_strip]

/-- `is_union` only looks at the stripped type. -/
theorem is_union_strip (t : GType) : is_union (strip t) = is_union t := by
  rw [is_union, is_union, strip_strip]

/-- `is_array` only looks at the stripped type. -/
theorem is_array_strip (t : GType) : is_array (strip t) = is_array t := by
  rw [is_array, is_array, strip_strip]

/-- `typename` only looks at the stripped type. -/
theorem typename_strip (t : GType) : typename (strip t) = typename t := by
  simp only [typename, strip_strip]

/-- `array_len` only looks at the stripped type. -/
theorem array_len_strip (t : GType) : array_len (strip t) = array_len t := by
  simp only [array_len, strip_strip]

/-! ### Step lemmas: the walker's one-step behavior, in rewriting form -/

/-- A pointer-classified value is reported and nothing else happens. -/
theorem walk_value_ptr (v : GValue) (path : String) (c : Nat)
    (h : is_ptr v.ty = true) :
    walk_value v path c =
      ([Line.report path (typename v.ty) (fmt_addr v)], c + 1) := by
  obtain ⟨ty, ir, d, el, fv⟩ := v
  rw [walk_value]
  simp only [GValue.ty] at h ⊢
  rw [if_pos ((is_ptr_strip ty).trans h), report_pointer, typename_strip]

/-- An array-classified value with unknown length yields one
diagnostic line. -/
theorem walk_value_array_none (v : GValue) (path : String) (c : Nat)
    (tg : Option String) (d : String) (sz : Option Int) (el : GType)
    (rng : Option (Int × Int))
    (h : strip v.ty = .arrayTy tg d sz el rng)
    (hlen : array_len v.ty = none) :
    walk_value v path c = ([Line.lenUnknown path (typename el)], c) := by
  obtain ⟨ty, ir, ds, es, fv⟩ := v
  rw [walk_value]
  simp only [GValue.ty] at h hlen
  have hp : is_ptr (strip ty) = false := by rw [is_ptr, strip_strip, h]
  rw [hp]
  simp only [Bool.false_eq_true, if_false, h, ← array_len_strip ty, h] at hlen ⊢
  rw [hlen]

/-- An array-classified value with a known length `n` iterates the
element loop for `n.toNat` indices. -/
theorem walk_value_array_some (v : GValue) (path : String) (c : Nat)
    (tg : Option String) (d : String) (sz : Option Int) (el : GType)
    (rng : Option (Int × Int)) (n : Int)
    (h : strip v.ty = .arrayTy tg d sz el rng)
    (hlen : array_len v.ty = some n) :
    walk_value v path c = walk_elems v.elems path 0 n.toNat c := by
  obtain ⟨ty, ir, ds, es, fv⟩ := v
  rw [walk_value]
  simp only [GValue.ty, GValue.elems] at h hlen ⊢
  have hp : is_ptr (strip ty) = false := by rw [is_ptr, strip_strip, h]
  rw [hp]
  simp only [Bool.false_eq_true, if_false, h, ← array_len_strip ty, h] at hlen ⊢
  rw [hlen]

/-- A struct-classified value walks its fields against its field
sub-values. -/
theorem walk_value_struct (v : GValue) (path : String) (c : Nat)
    (tg : Option String) (d : String) (sz : Option Int)
    (fs : List GField)
    (h : strip v.ty = .structTy tg d sz fs) :
    walk_value v path c = walk_struct_fields fs v.fieldVals path c := by
  obtain ⟨ty, ir, ds, es, fv⟩ := v
  rw [walk_value]
  simp only [GValue.ty, GValue.fieldVals] at h ⊢
  have hp : is_ptr (strip ty) = false := by rw [is_ptr, strip_strip, h]
  rw [hp]
  simp only [Bool.false_eq_true, if_false, h]

/-- A union-classified value walks its members against its field
sub-values. -/
theorem walk_value_union (v : GValue) (path : String) (c : Nat)
    (tg : Option String) (d : String) (sz : Option Int)
    (fs : List GField)
    (h : strip v.ty = .unionTy tg d sz fs) :
    walk_value v path c = walk_union_fields fs v.fieldVals path c := by
  obtain ⟨ty, ir, ds, es, fv⟩ := v
  rw [walk_value]
  simp only [GValue.ty, GValue.fieldVals] at h ⊢
  have hp : is_ptr (strip ty) = false := by rw [is_ptr, strip_strip, h]
  rw [hp]
  simp only [Bool.false_eq_true, if_false, h]

/-- A scalar-classified value produces nothing. -/
theorem walk_value_scalar (v : GValue) (path : String) (c : Nat)
    (tg : Option String) (d : String) (sz : Option Int)
    (h : strip v.ty = .scalarTy tg d sz) :
    walk_value v path c = ([], c) := by
  obtain ⟨ty, ir, ds, es, fv⟩ := v
  rw [walk_value]
  simp only [GValue.ty] at h ⊢
  have hp : is_ptr (strip ty) = false := by rw [is_ptr, strip_strip, h]
  rw [hp]
  simp only [Bool.false_eq_true, if_false, h]

/-- Element loop: no indices left. -/
theorem walk_elems_zero (l : List (Option GValue)) (path : String)
    (i c : Nat) : walk_elems l path i 0 c = ([], c) := by
  cases l with
  | nil => rw [walk_elems]
  | cons o rest => cases o <;> rw [walk_elems]

/-- Element loop: index past the end of the available sub-values. -/
theorem walk_elems_nil (path : String) (i r c : Nat) :
    walk_elems [] path i (r + 1) c =
      (Line.inaccElem path i :: (walk_elems [] path (i + 1) r c).1,
        (walk_elems [] path (i + 1) r c).2) := by
  rw [walk_elems]

/-- Element loop: `val[i]` raises. -/
theorem walk_elems_cons_none (rest : List (Option GValue)) (path : String)
    (i r c : Nat) :
    walk_elems (none :: rest) path i (r + 1) c =
      (Line.inaccElem path i :: (walk_elems rest path (i + 1) r c).1,
        (walk_elems rest path (i + 1) r c).2) := by
  rw [walk_elems]

/-- Element loop: `val[i]` succeeds and the element is walked. -/
theorem walk_elems_cons_some (v : GValue) (rest : List (Option GValue))
    (path : String) (i r c : Nat) :
    walk_elems (some v :: rest) path i (r + 1) c =
      ((walk_value v (path ++ "[" ++ toString i ++ "]") c).1 ++
        (walk_elems rest path (i + 1) r
          (walk_value v (path ++ "[" ++ toString i ++ "]") c).2).1,
        (walk_elems rest path (i + 1) r
          (walk_value v (path ++ "[" ++ toString i ++ "]") c).2).2) := by
  rw [walk_elems]

/-- Struct field loop: no fields left. -/
theorem walk_struct_fields_nil (vs : List (Option GValue)) (path : String)
    (c : Nat) : walk_struct_fields [] vs path c = ([], c) := by
  rw [walk_struct_fields]

/-- Struct field loop: an `artificial` field is skipped. -/
theorem walk_struct_fields_cons_art (f : GField) (fs : List GField)
    (vs : List (Option GValue)) (path : String) (c : Nat)
    (h : f.2.1 = true) :
    walk_struct_fields (f :: fs) vs path c =
      walk_struct_fields fs vs.tail path c := by
  cases vs with
  | nil => rw [walk_struct_fields, if_pos h]; rfl
  | cons o rest => cases o <;> (rw [walk_struct_fields, if_pos h]; rfl)

/-- Struct field loop: no sub-value slot left, `val[f]` raises. -/
theorem walk_struct_fields_cons_nil (f : GField) (fs : List GField)
    (path : String) (c : Nat) (h : f.2.1 = false) :
    walk_struct_fields (f :: fs) [] path c =
      (Line.inaccField (path ++ "." ++ fieldDisplayName f.1) ::
        (walk_struct_fields fs [] path c).1,
        (walk_struct_fields fs [] path c).2) := by
  rw [walk_struct_fields, if_neg (by simp [h])]

/-- Struct field loop: `val[f]` raises. -/
theorem walk_struct_fields_cons_none (f : GField) (fs : List GField)
    (vrest : List (Option GValue)) (path : String) (c : Nat)
    (h : f.2.1 = false) :
    walk_struct_fields (f :: fs) (none :: vrest) path c =
      (Line.inaccField (path ++ "." ++ fieldDisplayName f.1) ::
        (walk_struct_fields fs vrest path c).1,
        (walk_struct_fields fs vrest path c).2) := by
  rw [walk_struct_fields, if_neg (by simp [h])]

/-- Struct field loop: a pointer field is reported directly. -/
theorem walk_struct_fields_cons_ptr (f : GField) (fs : List GField)
    (fval : GValue) (vrest : List (Option GValue)) (path : String) (c : Nat)
    (h : f.2.1 = false) (hp : is_ptr f.2.2 = true) :
    walk_struct_fields (f :: fs) (some fval :: vrest) path c =
      (Line.report (path ++ "." ++ fieldDisplayName f.1) (typename f.2.2)
          (fmt_addr fval) :: (walk_struct_fields fs vrest path (c + 1)).1,
        (walk_struct_fields fs vrest path (c + 1)).2) := by
  rw [walk_struct_fields, if_neg (by simp [h])]
  simp only [is_ptr_strip, hp, if_true, report_pointer, typename_strip]
  cases hw : walk_struct_fields fs vrest path (c + 1)
  rfl

/-- Struct field loop: an aggregate field is recursed into. -/
theorem walk_struct_fields_cons_agg (f : GField) (fs : List GField)
    (fval : GValue) (vrest : List (Option GValue)) (path : String) (c : Nat)
    (h : f.2.1 = false) (hp : is_ptr f.2.2 = false)
    (ha : (is_array f.2.2 || is_struct f.2.2 || is_union f.2.2) = true) :
    walk_struct_fields (f :: fs) (some fval :: vrest) path c =
      ((walk_value fval (path ++ "." ++ fieldDisplayName f.1) c).1 ++
        (walk_struct_fields fs vrest path
          (walk_value fval (path ++ "." ++ fieldDisplayName f.1) c).2).1,
        (walk_struct_fields fs vrest path
          (walk_value fval (path ++ "." ++ fieldDisplayName f.1) c).2).2) := by
  rw [walk_struct_fields, if_neg (by simp [h])]
  simp only [is_ptr_strip, is_array_strip, is_struct_strip, is_union_strip,
    hp, ha, Bool.false_eq_true, if_false, if_true]

/-- Struct field loop: a scalar (non-pointer, non-aggregate) field is
ignored. -/
theorem walk_struct_fields_cons_scalar (f : GField) (fs : List GField)
    (fval : GValue) (vrest : List (Option GValue)) (path : String) (c : Nat)
    (h : f.2.1 = false) (hp : is_ptr f.2.2 = false)
    (ha : (is_array f.2.2 || is_struct f.2.2 || is_union f.2.2) = false) :
    walk_struct_fields (f :: fs) (some fval :: vrest) path c =
      walk_struct_fields fs vrest path c := by
  rw [walk_struct_fields, if_neg (by simp [h])]
  simp only [is_ptr_strip, is_array_strip, is_struct_strip, is_union_strip,
    hp, ha, Bool.false_eq_true, if_false]

/-- Union member loop: no members left. -/
theorem walk_union_fields_nil (vs : List (Option GValue)) (path : String)
    (c : Nat) : walk_union_fields [] vs path c = ([], c) := by
  rw [walk_union_fields]

/-- Union member loop: no sub-value slot left, `val[f]` raises. -/
theorem walk_union_fields_cons_nil (f : GField) (fs : List GField)
    (path : String) (c : Nat) :
    walk_union_fields (f :: fs) [] path c =
      (Line.inaccField (path ++ "." ++ fieldDisplayName f.1) ::
        (walk_union_fields fs [] path c).1,
        (walk_union_fields fs [] path c).2) := by
  rw [walk_union_fields]

/-- Union member loop: `val[f]` raises. -/
theorem walk_union_fields_cons_none (f : GField) (fs : List GField)
    (vrest : List (Option GValue)) (path : String) (c : Nat) :
    walk_union_fields (f :: fs) (none :: vrest) path c =
      (Line.inaccField (path ++ "." ++ fieldDisplayName f.1) ::
        (walk_union_fields fs vrest path c).1,
        (walk_union_fields fs vrest path c).2) := by
  rw [walk_union_fields]

/-- Union member loop: a pointer member is reported directly. -/
theorem walk_union_fields_cons_ptr (f : GField) (fs : List GField)
    (fval : GValue) (vrest : List (Option GValue)) (path : String) (c : Nat)
    (hp : is_ptr f.2.2 = true) :
    walk_union_fields (f :: fs) (some fval :: vrest) path c =
      (Line.report (path ++ "." ++ fieldDisplayName f.1) (typename f.2.2)
          (fmt_addr fval) :: (walk_union_fields fs vrest path (c + 1)).1,
        (walk_union_fields fs vrest path (c + 1)).2) := by
  rw [walk_union_fields]
  simp only [is_ptr_strip, hp, if_true, report_pointer, typename_strip]
  cases hw : walk_union_fields fs vrest path (c + 1)
  rfl

/-- Union member loop: an aggregate member is recursed into. -/
theorem walk_union_fields_cons_agg (f : GField) (fs : List GField)
    (fval : GValue) (vrest : List (Option GValue)) (path : String) (c : Nat)
    (hp : is_ptr f.2.2 = false)
    (ha : (is_array f.2.2 || is_struct f.2.2 || is_union f.2.2) = true) :
    walk_union_fields (f :: fs) (some fval :: vrest) path c =
      ((walk_value fval (path ++ "." ++ fieldDisplayName f.1) c).1 ++
        (walk_union_fields fs vrest path
          (walk_value fval (path ++ "." ++ fieldDisplayName f.1) c).2).1,
        (walk_union_fields fs vrest path
          (walk_value fval (path ++ "." ++ fieldDisplayName f.1) c).2).2) := by
  rw [walk_union_fields]
  simp only [is_ptr_strip, is_array_strip, is_struct_strip, is_union_strip,
    hp, ha, Bool.false_eq_true, if_false, if_true]

/-- Union member loop: a scalar member is ignored. -/
theorem walk_union_fields_cons_scalar (f : GField) (fs : List GField)
    (fval : GValue) (vrest : List (Option GValue)) (path : String) (c : Nat)
    (hp : is_ptr f.2.2 = false)
    (ha : (is_array f.2.2 || is_struct f.2.2 || is_union f.2.2) = false) :
    walk_union_fields (f :: fs) (some fval :: vrest) path c =
      walk_union_fields fs vrest path c := by
  rw [walk_union_fields]
  simp only [is_ptr_strip, is_array_strip, is_struct_strip, is_union_strip,
    hp, ha, Bool.false_eq_true, if_false]

/-! ### Constructor-form step lemmas, suitable as rewrite rules on
concrete values -/

/-- Walking a value of typedef type is walking the same value with the
typedef layer removed: every branch of the dispatch looks only at the
stripped type and the value's other components. -/
theorem walk_value_typedefed (d : String) (u : GType) (ir : Option Int)
    (dsp : String) (el fv : List (Option GValue)) (path : String) (c : Nat) :
    walk_value (.mk (.typedefed d u) ir dsp el fv) path c =
      walk_value (.mk u ir dsp el fv) path c := by
  rw [walk_value, walk_value]
  have hs : strip (GType.typedefed d u) = strip u := by rw [strip]
  simp only [hs]
  have hf : fmt_addr (GValue.mk (GType.typedefed d u) ir dsp el fv) =
      fmt_addr (GValue.mk u ir dsp el fv) := by
    simp only [fmt_addr, GValue.intRes, GValue.display]
  cases hq : strip u <;> simp only [report_pointer, hf]

/-- Walking a pointer-typed value. -/
theorem walk_value_ptrTy (tg : Option String) (ds : String) (sz : Option Int)
    (ir : Option Int) (dsp : String) (el fv : List (Option GValue))
    (path : String) (c : Nat) :
    walk_value (.mk (.ptrTy tg ds sz) ir dsp el fv) path c =
      ([Line.report path (typename (.ptrTy tg ds sz))
          (fmt_addr (.mk (.ptrTy tg ds sz) ir dsp el fv))], c + 1) := by
  exact walk_value_ptr _ path c rfl

/-- Walking an array-typed value. -/
theorem walk_value_arrayTy (tg : Option String) (ds : String) (sz : Option Int)
    (el : GType) (rng : Option (Int × Int)) (ir : Option Int) (dsp : String)
    (es fv : List (Option GValue)) (path : String) (c : Nat) :
    walk_value (.mk (.arrayTy tg ds sz el rng) ir dsp es fv) path c =
      (match array_len (.arrayTy tg ds sz el rng) with
       | none => ([Line.lenUnknown path (typename el)], c)
       | some n => walk_elems es path 0 n.toNat c) := by
  cases hl : array_len (GType.arrayTy tg ds sz el rng) with
  | none => exact walk_value_array_none _ path c tg ds sz el rng rfl hl
  | some n => exact walk_value_array_some _ path c tg ds sz el rng n rfl hl

/-- Walking a struct-typed value. -/
theorem walk_value_structTy (tg : Option String) (ds : String) (sz : Option Int)
    (fs : List GField) (ir : Option Int) (dsp : String)
    (el fv : List (Option GValue)) (path : String) (c : Nat) :
    walk_value (.mk (.structTy tg ds sz fs) ir dsp el fv) path c =
      walk_struct_fields fs fv path c := by
  exact walk_value_struct _ path c tg ds sz fs rfl

/-- Walking a union-typed value. -/
theorem walk_value_unionTy (tg : Option String) (ds : String) (sz : Option Int)
    (fs : List GField) (ir : Option Int) (dsp : String)
    (el fv : List (Option GValue)) (path : String) (c : Nat) :
    walk_value (.mk (.unionTy tg ds sz fs) ir dsp el fv) path c =
      walk_union_fields fs fv path c := by
  exact walk_value_union _ path c tg ds sz fs rfl

/-- Walking a scalar-typed value. -/
theorem walk_value_scalarTy (tg : Option String) (ds : String) (sz : Option Int)
    (ir : Option Int) (dsp : String) (el fv : List (Option GValue))
    (path : String) (c : Nat) :
    walk_value (.mk (.scalarTy tg ds sz) ir dsp el fv) path c = ([], c) := by
  exact walk_value_scalar _ path c tg ds sz rfl

/-- Element loop, positive-count form: index past the end. -/
theorem walk_elems_pos_nil (path : String) (i r c : Nat) (h : 0 < r) :
    walk_elems [] path i r c =
      (Line.inaccElem path i :: (walk_elems [] path (i + 1) (r - 1) c).1,
        (walk_elems [] path (i + 1) (r - 1) c).2) := by
  obtain ⟨r', rfl⟩ : ∃ r', r = r' + 1 := ⟨r - 1, by omega⟩
  simpa using walk_elems_nil path i r' c

/-- Element loop, positive-count form: `val[i]` raises. -/
theorem walk_elems_pos_none (rest : List (Option GValue)) (path : String)
    (i r c : Nat) (h : 0 < r) :
    walk_elems (none :: rest) path i r c =
      (Line.inaccElem path i :: (walk_elems rest path (i + 1) (r - 1) c).1,
        (walk_elems rest path (i + 1) (r - 1) c).2) := by
  obtain ⟨r', rfl⟩ : ∃ r', r = r' + 1 := ⟨r - 1, by omega⟩
  simpa using walk_elems_cons_none rest path i r' c

/-- Element loop, positive-count form: the element is walked. -/
theorem walk_elems_pos_some (v : GValue) (rest : List (Option GValue))
    (path : String) (i r c : Nat) (h : 0 < r) :
    walk_elems (some v :: rest) path i r c =
      ((walk_value v (path ++ "[" ++ toString i ++ "]") c).1 ++
        (walk_elems rest path (i + 1) (r - 1)
          (walk_value v (path ++ "[" ++ toString i ++ "]") c).2).1,
        (walk_elems rest path (i + 1) (r - 1)
          (walk_value v (path ++ "[" ++ toString i ++ "]") c).2).2) := by
  obtain ⟨r', rfl⟩ : ∃ r', r = r' + 1 := ⟨r - 1, by omega⟩
  simpa using walk_elems_cons_some v rest path i r' c

/-- `strip` never returns a typedef layer. -/
theorem strip_no_typedef : (t : GType) → ∀ d u, strip t ≠ GType.typedefed d u
  | .typedefed d0 u0 => by rw [strip]; exact strip_no_typedef u0
  | .ptrTy _ _ _ => by intro d u h; simp [strip] at h
  | .structTy _ _ _ _ => by intro d u h; simp [strip] at h
  | .unionTy _ _ _ _ => by intro d u h; simp [strip] at h
  | .arrayTy _ _ _ _ _ => by intro d u h; simp [strip] at h
  | .scalarTy _ _ _ => by intro d u h; simp [strip] at h

/-- The threaded `self.count` always advances by exactly the number of
Report Record lines written, in every branch of the mutual recursion. -/
theorem walk_count_all :
    (∀ (v : GValue) (path : String) (c : Nat),
      (walk_value v path c).2 = c + countReports (walk_value v path c).1) ∧
    (∀ (fs : List GField) (vs : List (Option GValue)) (path : String) (c : Nat),
      (walk_union_fields fs vs path c).2 =
        c + countReports (walk_union_fields fs vs path c).1) ∧
    (∀ (fs : List GField) (vs : List (Option GValue)) (path : String) (c : Nat),
      (walk_struct_fields fs vs path c).2 =
        c + countReports (walk_struct_fields fs vs path c).1) ∧
    (∀ (l : List (Option GValue)) (path : String) (i r c : Nat),
      (walk_elems l path i r c).2 = c + countReports (walk_elems l path i r c).1) := by
  apply walk_value.mutual_induct
    (fun v path c => (walk_value v path c).2 = c + countReports (walk_value v path c).1)
    (fun fs vs path c => (walk_union_fields fs vs path c).2 =
      c + countReports (walk_union_fields fs vs path c).1)
    (fun fs vs path c => (walk_struct_fields fs vs path c).2 =
      c + countReports (walk_struct_fields fs vs path c).1)
    (fun l path i r c => (walk_elems l path i r c).2 =
      c + countReports (walk_elems l path i r c).1)
  -- walk_value: pointer
  · intro ty ir d el fv path c t hptr
    have h2 : is_ptr ty = true := by rw [← is_ptr_strip]; exact hptr
    rw [walk_value_ptr (GValue.mk ty ir d el fv) path c h2]
    simp [countReports, List.countP_cons, isReport]
  -- walk_value: array, unknown length
  · intro ty ir d el fv path c t hnp tag d1 sz elem rng ht hlen
    have hl2 : array_len ty = none := by rw [← array_len_strip]; exact hlen
    rw [walk_value_array_none (GValue.mk ty ir d el fv) path c tag d1 sz elem rng
      ht hl2]
    simp [countReports, List.countP_cons, isReport]
  -- walk_value: array, known length
  · intro ty ir d el fv path c t hnp tag d1 sz elem rng ht n hlen ih
    have hl2 : array_len ty = some n := by rw [← array_len_strip]; exact hlen
    rw [walk_value_array_some (GValue.mk ty ir d el fv) path c tag d1 sz elem rng
      n ht hl2]
    simpa only [GValue.elems] using ih
  -- walk_value: struct
  · intro ty ir d el fv path c t hnp tag d1 sz fs ht ih
    rw [walk_value_struct (GValue.mk ty ir d el fv) path c tag d1 sz fs ht]
    simpa only [GValue.fieldVals] using ih
  -- walk_value: union
  · intro ty ir d el fv path c t hnp tag d1 sz fs ht ih
    rw [walk_value_union (GValue.mk ty ir d el fv) path c tag d1 sz fs ht]
    simpa only [GValue.fieldVals] using ih
  -- walk_value: scalar / other
  · intro ty ir d el fv path c t hnp hna hns hnu
    cases ht : strip ty with
    | typedefed d2 u2 => exact absurd ht (strip_no_typedef ty d2 u2)
    | ptrTy tg2 d2 sz2 =>
      have : is_ptr (strip ty) = true := by rw [is_ptr, strip_strip, ht]
      exact absurd this hnp
    | structTy tg2 d2 sz2 fs2 => exact ((hns tg2 d2 sz2 fs2 ht).elim)
    | unionTy tg2 d2 sz2 fs2 => exact ((hnu tg2 d2 sz2 fs2 ht).elim)
    | arrayTy tg2 d2 sz2 e2 r2 => exact ((hna tg2 d2 sz2 e2 r2 ht).elim)
    | scalarTy tg2 d2 sz2 =>
      rw [walk_value_scalar (GValue.mk ty ir d el fv) path c tg2 d2 sz2 ht]
      simp [countReports]
  -- walk_union_fields: nil
  · intro vs path c
    rw [walk_union_fields_nil]
    simp [countReports]
  -- walk_union_fields: cons, value list exhausted
  · intro f fs path c ls c' heq ih
    rw [walk_union_fields_cons_nil]
    simp only [countReports, List.countP_cons, isReport, Bool.false_eq_true,
      if_false, if_true] at ih ⊢
    omega
  -- walk_union_fields: cons, inaccessible member
  · intro f fs vrest path c ls c' heq ih
    rw [walk_union_fields_cons_none]
    simp only [countReports, List.countP_cons, isReport, Bool.false_eq_true,
      if_false, if_true] at ih ⊢
    omega
  -- walk_union_fields: cons, pointer member
  · intro f fs fval vrest path c ftype full hp ls c' heqr ls2 c2 hequ ih
    have hp' : is_ptr f.2.2 = true := by rw [← is_ptr_strip]; exact hp
    have hfull : full = path ++ "." ++ fieldDisplayName f.1 := rfl
    simp only [report_pointer] at heqr
    injection heqr with h1 h2
    subst h2
    rw [walk_union_fields_cons_ptr f fs fval vrest path c hp']
    simp only [countReports, List.countP_cons, isReport, Bool.false_eq_true,
      if_false, if_true] at ih ⊢
    omega
  -- walk_union_fields: cons, aggregate member
  · intro f fs fval vrest path c ftype full hnp hagg ls c' heqv ls2 c2 hequ ihv ihu
    have hft : ftype = strip f.2.2 := rfl
    have hfull : full = path ++ "." ++ fieldDisplayName f.1 := rfl
    rw [hft] at hnp hagg
    rw [hfull] at heqv ihv
    have hp' : is_ptr f.2.2 = false := by
      rw [← is_ptr_strip]
      cases hq : is_ptr (strip f.2.2)
      · rfl
      · exact absurd hq hnp
    have ha' : (is_array f.2.2 || is_struct f.2.2 || is_union f.2.2) = true := by
      simpa only [is_array_strip, is_struct_strip, is_union_strip] using hagg
    rw [walk_union_fields_cons_agg f fs fval vrest path c hp' ha']
    have hc' : (walk_value fval (path ++ "." ++ fieldDisplayName f.1) c).2 = c' := by
      rw [heqv]
    rw [hc']
    simp only [countReports, List.countP_append] at ihv ihu ⊢
    omega
  -- walk_union_fields: cons, scalar member
  · intro f fs fval vrest path c ftype hnp hna ih
    have hft : ftype = strip f.2.2 := rfl
    rw [hft] at hnp hna
    have hp' : is_ptr f.2.2 = false := by
      rw [← is_ptr_strip]
      cases hq : is_ptr (strip f.2.2)
      · rfl
      · exact absurd hq hnp
    have ha' : (is_array f.2.2 || is_struct f.2.2 || is_union f.2.2) = false := by
      rw [← is_array_strip, ← is_struct_strip, ← is_union_strip]
      cases hq : (is_array (strip f.2.2) || is_struct (strip f.2.2) ||
          is_union (strip f.2.2))
      · rfl
      · exact absurd hq hna
    rw [walk_union_fields_cons_scalar f fs fval vrest path c hp' ha']
    exact ih
  -- walk_struct_fields: nil
  · intro vs path c
    rw [walk_struct_fields_nil]
    simp [countReports]
  -- walk_struct_fields: cons artificial, value list exhausted
  · intro f fs path c hart ih
    rw [walk_struct_fields_cons_art f fs [] path c hart]
    exact ih
  -- walk_struct_fields: cons, value list exhausted
  · intro f fs path c hart ls c' heq ih
    have hart' : f.2.1 = false := by
      cases hq : f.2.1
      · rfl
      · exact absurd hq hart
    rw [walk_struct_fields_cons_nil f fs path c hart']
    simp only [countReports, List.countP_cons, isReport, Bool.false_eq_true,
      if_false, if_true] at ih ⊢
    omega
  -- walk_struct_fields: cons artificial, inaccessible slot
  · intro f fs vrest path c hart ih
    rw [walk_struct_fields_cons_art f fs (none :: vrest) path c hart]
    exact ih
  -- walk_struct_fields: cons, inaccessible member
  · intro f fs vrest path c hart ls c' heq ih
    have hart' : f.2.1 = false := by
      cases hq : f.2.1
      · rfl
      · exact absurd hq hart
    rw [walk_struct_fields_cons_none f fs vrest path c hart']
    simp only [countReports, List.countP_cons, isReport, Bool.false_eq_true,
      if_false, if_true] at ih ⊢
    omega
  -- walk_struct_fields: cons artificial, member present
  · intro f fs fval vrest path c hart ih
    rw [walk_struct_fields_cons_art f fs (some fval :: vrest) path c hart]
    exact ih
  -- walk_struct_fields: cons, pointer member
  · intro f fs fval vrest path c hart ftype full hp ls c' heqr ls2 c2 heqs ih
    have hart' : f.2.1 = false := by
      cases hq : f.2.1
      · rfl
      · exact absurd hq hart
    have hp' : is_ptr f.2.2 = true := by rw [← is_ptr_strip]; exact hp
    simp only [report_pointer] at heqr
    injection heqr with h1 h2
    subst h2
    rw [walk_struct_fields_cons_ptr f fs fval vrest path c hart' hp']
    simp only [countReports, List.countP_cons, isReport, Bool.false_eq_true,
      if_false, if_true] at ih ⊢
    omega
  -- walk_struct_fields: cons, aggregate member
  · intro f fs fval vrest path c hart ftype full hnp hagg ls c' heqv ls2 c2 heqs
      ihv ihs
    have hart' : f.2.1 = false := by
      cases hq : f.2.1
      · rfl
      · exact absurd hq hart
    have hft : ftype = strip f.2.2 := rfl
    have hfull : full = path ++ "." ++ fieldDisplayName f.1 := rfl
    rw [hft] at hnp hagg
    rw [hfull] at heqv ihv
    have hp' : is_ptr f.2.2 = false := by
      rw [← is_ptr_strip]
      cases hq : is_ptr (strip f.2.2)
      · rfl
      · exact absurd hq hnp
    have ha' : (is_array f.2.2 || is_struct f.2.2 || is_union f.2.2) = true := by
      simpa only [is_array_strip, is_struct_strip, is_union_strip] using hagg
    rw [walk_struct_fields_cons_agg f fs fval vrest path c hart' hp' ha']
    have hc' : (walk_value fval (path ++ "." ++ fieldDisplayName f.1) c).2 = c' := by
      rw [heqv]
    rw [hc']
    simp only [countReports, List.countP_append] at ihv ihs ⊢
    omega
  -- walk_struct_fields: cons, scalar member
  · intro f fs fval vrest path c hart ftype hnp hna ih
    have hart' : f.2.1 = false := by
      cases hq : f.2.1
      · rfl
      · exact absurd hq hart
    have hft : ftype = strip f.2.2 := rfl
    rw [hft] at hnp hna
    have hp' : is_ptr f.2.2 = false := by
      rw [← is_ptr_strip]
      cases hq : is_ptr (strip f.2.2)
      · rfl
      · exact absurd hq hnp
    have ha' : (is_array f.2.2 || is_struct f.2.2 || is_union f.2.2) = false := by
      rw [← is_array_strip, ← is_struct_strip, ← is_union_strip]
      cases hq : (is_array (strip f.2.2) || is_struct (strip f.2.2) ||
          is_union (strip f.2.2))
      · rfl
      · exact absurd hq hna
    rw [walk_struct_fields_cons_scalar f fs fval vrest path c hart' hp' ha']
    exact ih
  -- walk_elems: zero indices remaining
  · intro l path i c
    rw [walk_elems_zero]
    simp [countReports]
  -- walk_elems: list exhausted
  · intro path i r c ls c' heq ih
    simp only [Nat.succ_eq_add_one]
    rw [walk_elems_nil path i r c]
    simp only [countReports, List.countP_cons, isReport, Bool.false_eq_true,
      if_false, if_true] at ih ⊢
    omega
  -- walk_elems: inaccessible element
  · intro rest path i r c ls c' heq ih
    simp only [Nat.succ_eq_add_one]
    rw [walk_elems_cons_none rest path i r c]
    simp only [countReports, List.countP_cons, isReport, Bool.false_eq_true,
      if_false, if_true] at ih ⊢
    omega
  -- walk_elems: element walked
  · intro v rest path i r c ls c' heqv ls2 c2 heqe ihv ihe
    simp only [Nat.succ_eq_add_one]
    rw [walk_elems_cons_some v rest path i r c]
    have hc' : (walk_value v (path ++ "[" ++ toString i ++ "]") c).2 = c' := by
      rw [heqv]
    rw [hc']
    simp only [countReports, List.countP_append] at ihv ihe ⊢
    omega

/-- The element loop splits over a decomposition of the sub-value list
when the index budget covers the prefix. -/
theorem walk_elems_append (l1 l2 : List (Option GValue)) (path : String) :
    ∀ (i r c : Nat),
    walk_elems (l1 ++ l2) path i (l1.length + r) c =
      ((walk_elems l1 path i l1.length c).1 ++
        (walk_elems l2 path (i + l1.length) r
          (walk_elems l1 path i l1.length c).2).1,
        (walk_elems l2 path (i + l1.length) r
          (walk_elems l1 path i l1.length c).2).2) := by
  induction l1 with
  | nil =>
    intro i r c
    simp [walk_elems_zero]
  | cons o rest ih =>
    intro i r c
    cases o with
    | none =>
      have hlen : (none :: rest : List (Option GValue)).length + r =
          (rest.length + r) + 1 := by simp; omega
      rw [hlen, List.cons_append, walk_elems_cons_none, ih (i + 1) r c]
      have hlen2 : (none :: rest : List (Option GValue)).length =
          rest.length + 1 := by simp
      rw [hlen2, walk_elems_cons_none]
      have hi : i + 1 + rest.length = i + (rest.length + 1) := by omega
      rw [hi]
      simp
    | some v =>
      have hlen : (some v :: rest : List (Option GValue)).length + r =
          (rest.length + r) + 1 := by simp; omega
      rw [hlen, List.cons_append, walk_elems_cons_some, ih (i + 1) r _]
      have hlen2 : (some v :: rest : List (Option GValue)).length =
          rest.length + 1 := by simp
      rw [hlen2, walk_elems_cons_some]
      have hi : i + 1 + rest.length = i + (rest.length + 1) := by omega
      rw [hi]
      simp

/-- The struct field loop splits over aligned decompositions of the
field list and the sub-value list. -/
theorem walk_struct_fields_append (fs1 fs2 : List GField) :
    ∀ (vs1 vs2 : List (Option GValue)) (path : String) (c : Nat),
    vs1.length = fs1.length →
    walk_struct_fields (fs1 ++ fs2) (vs1 ++ vs2) path c =
      ((walk_struct_fields fs1 vs1 path c).1 ++
        (walk_struct_fields fs2 vs2 path
          (walk_struct_fields fs1 vs1 path c).2).1,
        (walk_struct_fields fs2 vs2 path
          (walk_struct_fields fs1 vs1 path c).2).2) := by
  induction fs1 with
  | nil =>
    intro vs1 vs2 path c hlen
    have hv : vs1 = [] := List.eq_nil_of_length_eq_zero hlen
    subst hv
    simp [walk_struct_fields_nil]
  | cons f fs ih =>
    intro vs1 vs2 path c hlen
    cases vs1 with
    | nil => simp at hlen
    | cons o vrest =>
      have hlen' : vrest.length = fs.length := by simpa using hlen
      by_cases hart : f.2.1 = true
      · rw [List.cons_append, List.cons_append,
          walk_struct_fields_cons_art _ _ _ _ _ hart,
          walk_struct_fields_cons_art _ _ _ _ _ hart]
        simp only [List.tail_cons]
        exact ih vrest vs2 path c hlen'
      · have hart' : f.2.1 = false := by simpa using hart
        cases o with
        | none =>
          rw [List.cons_append, List.cons_append,
            walk_struct_fields_cons_none _ _ _ _ _ hart',
            walk_struct_fields_cons_none _ _ _ _ _ hart',
            ih vrest vs2 path c hlen']
          simp
        | some fval =>
          by_cases hp : is_ptr f.2.2 = true
          · rw [List.cons_append, List.cons_append,
              walk_struct_fields_cons_ptr _ _ _ _ _ _ hart' hp,
              walk_struct_fields_cons_ptr _ _ _ _ _ _ hart' hp,
              ih vrest vs2 path _ hlen']
            simp
          · have hp' : is_ptr f.2.2 = false := by simpa using hp
            by_cases ha : (is_array f.2.2 || is_struct f.2.2 ||
                is_union f.2.2) = true
            · rw [List.cons_append, List.cons_append,
                walk_struct_fields_cons_agg _ _ _ _ _ _ hart' hp' ha,
                walk_struct_fields_cons_agg _ _ _ _ _ _ hart' hp' ha,
                ih vrest vs2 path _ hlen']
              simp
            · have ha' : (is_array f.2.2 || is_struct f.2.2 ||
                  is_union f.2.2) = false := by simpa using ha
              rw [List.cons_append, List.cons_append,
                walk_struct_fields_cons_scalar _ _ _ _ _ _ hart' hp' ha',
                walk_struct_fields_cons_scalar _ _ _ _ _ _ hart' hp' ha']
              exact ih vrest vs2 path c hlen'

/-- Walking union members is walking the same members as struct fields
with every `artificial` flag cleared: the two loops differ only in the
struct loop's `artificial` check. -/
theorem walk_union_as_struct (fs : List GField) :
    ∀ (vs : List (Option GValue)) (path : String) (c : Nat),
    walk_union_fields fs vs path c =
      walk_struct_fields (fs.map fun f => (f.1, false, f.2.2)) vs path c := by
  induction fs with
  | nil =>
    intro vs path c
    simp [walk_union_fields_nil, walk_struct_fields_nil]
  | cons f fs ih =>
    intro vs path c
    rw [List.map_cons]
    cases vs with
    | nil =>
      rw [walk_union_fields_cons_nil,
        walk_struct_fields_cons_nil (f.1, false, f.2.2) _ _ _ rfl, ih [] path c]
    | cons o vrest =>
      cases o with
      | none =>
        rw [walk_union_fields_cons_none,
          walk_struct_fields_cons_none (f.1, false, f.2.2) _ _ _ _ rfl,
          ih vrest path c]
      | some fval =>
        by_cases hp : is_ptr f.2.2 = true
        · rw [walk_union_fields_cons_ptr _ _ _ _ _ _ hp,
            walk_struct_fields_cons_ptr (f.1, false, f.2.2) _ _ _ _ _ rfl hp,
            ih vrest path (c + 1)]
        · have hp' : is_ptr f.2.2 = false := by simpa using hp
          by_cases ha : (is_array f.2.2 || is_struct f.2.2 ||
              is_union f.2.2) = true
          · rw [walk_union_fields_cons_agg _ _ _ _ _ _ hp' ha,
              walk_struct_fields_cons_agg (f.1, false, f.2.2) _ _ _ _ _ rfl
                hp' ha,
              ih vrest path _]
          · have ha' : (is_array f.2.2 || is_struct f.2.2 ||
                is_union f.2.2) = false := by simpa using ha
            rw [walk_union_fields_cons_scalar _ _ _ _ _ _ hp' ha',
              walk_struct_fields_cons_scalar (f.1, false, f.2.2) _ _ _ _ _ rfl
                hp' ha']
            exact ih vrest path c

/-- `hexCharVal` inverts `hexDigitChar` on digit values. -/
theorem hexCharVal_hexDigitChar (m : Nat) (h : m < 16) :
    hexCharVal (hexDigitChar m) = m := by
  interval_cases m <;> decide

/-- `hexDigitChar` always produces a lowercase hexadecimal digit. -/
theorem hexDigitChar_mem (m : Nat) (h : m < 16) :
    hexDigitChar m ∈ hexDigitsLower := by
  interval_cases m <;> decide

/-- With sufficient fuel, the hex digit list of `n` evaluates back to
`n`, consists of lowercase hexadecimal digits, and is nonempty for
nonzero `n`. -/
theorem natHexCharsAux_sound :
    ∀ (fuel n : Nat), n ≤ fuel →
    ((natHexCharsAux fuel n).foldl (fun a ch => 16 * a + hexCharVal ch) 0 = n) ∧
    (∀ ch ∈ natHexCharsAux fuel n, ch ∈ hexDigitsLower) ∧
    (n ≠ 0 → natHexCharsAux fuel n ≠ []) := by
  intro fuel
  induction fuel with
  | zero =>
    intro n hn
    have h0 : n = 0 := by omega
    subst h0
    simp [natHexCharsAux]
  | succ fuel ih =>
    intro n hn
    by_cases h0 : n = 0
    · subst h0
      simp [natHexCharsAux]
    · have hle : n / 16 ≤ fuel := by omega
      obtain ⟨hval, hmem, _⟩ := ih (n / 16) hle
      refine ⟨?_, ?_, ?_⟩
      · rw [natHexCharsAux, if_neg h0, List.foldl_append, hval]
        simp only [List.foldl_cons, List.foldl_nil]
        rw [hexCharVal_hexDigitChar (n % 16) (by omega)]
        omega
      · intro ch hch
        rw [natHexCharsAux, if_neg h0] at hch
        rcases List.mem_append.mp hch with hch | hch
        · exact hmem ch hch
        · simp only [List.mem_singleton] at hch
          subst hch
          exact hexDigitChar_mem (n % 16) (by omega)
      · intro _
        rw [natHexCharsAux, if_neg h0]
        simp

/-- `natHex n` is a nonempty all-lowercase-hex numeral whose value is
`n`. -/
theorem natHex_sound (n : Nat) :
    hexVal (natHex n) = n ∧ (natHex n).data ≠ [] ∧
    ∀ ch ∈ (natHex n).data, ch ∈ hexDigitsLower := by
  by_cases h0 : n = 0
  · subst h0
    exact ⟨by decide, by decide, by decide⟩
  · obtain ⟨hval, hmem, hne⟩ := natHexCharsAux_sound n n le_rfl
    rw [natHex, if_neg h0]
    exact ⟨hval, by simpa using hne h0, hmem⟩

/-! ### The claims -/

/-- Claim C1: for every root value and path label, the total count
returned by the enumerator's `run` equals exactly the number of pointer
Report Records among the lines it emits, and the printed total line
renders exactly that number; diagnostic lines (inaccessible element,
inaccessible field, unknown-length array) never increment the count. -/
theorem C1_run_count_eq_reports (e : StructPtrEnumerator) (v : GValue)
    (root : String) :
    ((e.run v root).1).count = countReports (e.run v root).2.1 ∧
    (e.run v root).2.2 = "\nTotal pointer fields: " ++
      toString (countReports (e.run v root).2.1) ++ "\n" := by
  have h := walk_count_all.1 v root 0
  simp only [StructPtrEnumerator.run]
  cases hw : walk_value v root 0 with
  | mk ls c =>
    rw [hw] at h
    simp only at h
    have hc : c = countReports ls := by omega
    subst hc
    exact ⟨rfl, rfl⟩

/-- Claim C2: a value whose stripped type is classified as Pointer is a
terminal node of the walk: exactly one Report Record is emitted for it,
the count advances by one, and nothing else is emitted (no recursion
into the value). -/
theorem C2_pointer_terminal (v : GValue) (path : String) (c : Nat)
    (h : is_ptr v.ty = true) :
    walk_value v path c =
      ([Line.report path (typename v.ty) (fmt_addr v)], c + 1) :=
  walk_value_ptr v path c h

/-- Witness for C2 at a concrete `char *` value holding `0x1000`. -/
theorem C2_witness :
    is_ptr (exPtrVal 4096).ty = true ∧
    walk_value (exPtrVal 4096) "p" 0 =
      ([Line.report "p" "char *" "0x1000"], 1) := by
  refine ⟨rfl, ?_⟩
  rw [C2_pointer_terminal (exPtrVal 4096) "p" 0 rfl]
  rfl

/-- Claim C3, counterexample: union traversal does not have the same
per-member behavior as struct traversal, because the union loop never
checks the `artificial` flag.  A union whose only member is flagged
compiler-synthetic still gets that member reported (and counted), while
the struct with the identical member list skips it and reports
nothing. -/
theorem C3_counterexample :
    walk_value synthUnionVal "u" 0 =
      ([Line.report "u.p" "char *" "0x1000"], 1) ∧
    walk_value synthStructVal "u" 0 = ([], 0) := by
  constructor
  · show walk_value (.mk synthUnionTy none "" [] [some (exPtrVal 4096)])
      "u" 0 = _
    rw [show synthUnionTy = GType.unionTy (some "U") "union U" (some 8)
        [(some "p", true, charPtrTyEx)] from rfl,
      walk_value_unionTy,
      walk_union_fields_cons_ptr _ _ _ _ _ _ (by decide),
      walk_union_fields_nil]
    rfl
  · show walk_value (.mk synthStructTy none "" [] [some (exPtrVal 4096)])
      "u" 0 = _
    rw [show synthStructTy = GType.structTy (some "U") "union U" (some 8)
        [(some "p", true, charPtrTyEx)] from rfl,
      walk_value_structTy,
      walk_struct_fields_cons_art _ _ _ _ _ (by decide),
      walk_struct_fields_nil]

/-- Claim C3 as amended: union traversal enumerates members in
declaration order, reports pointer members directly, recurses into
aggregate members, and visits all alternatives independently, exactly
like struct traversal — except that members flagged compiler-synthetic
are not skipped for unions.  Formally, walking a union value is
identical to walking a struct value with the same member list and
sub-values but with every synthetic flag cleared. -/
theorem C3_union_walk_eq_struct_cleared (tg : Option String) (ds : String)
    (sz : Option Int) (fs : List GField) (ir : Option Int) (dsp : String)
    (el fv : List (Option GValue)) (path : String) (c : Nat) :
    walk_value (.mk (.unionTy tg ds sz fs) ir dsp el fv) path c =
      walk_value (.mk (.structTy tg ds sz
        (fs.map fun f => (f.1, false, f.2.2))) ir dsp el fv) path c := by
  rw [walk_value_unionTy, walk_value_structTy]
  exact walk_union_as_struct fs fv path c

/-- Claim C4: an array value whose element count cannot be determined
produces exactly one diagnostic line naming the element type, leaves
the count unchanged, and the walk does not descend into the array. -/
theorem C4_unknown_array_len (v : GValue) (path : String) (c : Nat)
    (tg : Option String) (ds : String) (sz : Option Int) (el : GType)
    (rng : Option (Int × Int))
    (h : strip v.ty = .arrayTy tg ds sz el rng)
    (hlen : array_len v.ty = none) :
    walk_value v path c = ([Line.lenUnknown path (typename el)], c) :=
  walk_value_array_none v path c tg ds sz el rng h hlen

/-- Witness for C4 at a concrete flexible array value. -/
theorem C4_witness :
    strip unkArrVal.ty =
      GType.arrayTy none "int []" none (.scalarTy none "int" (some 4)) none ∧
    array_len unkArrVal.ty = none ∧
    walk_value unkArrVal "a" 5 = ([Line.lenUnknown "a" "int"], 5) := by
  refine ⟨rfl, rfl, ?_⟩
  rw [C4_unknown_array_len unkArrVal "a" 5 none "int []" none
    (.scalarTy none "int" (some 4)) none rfl rfl]
  rfl

/-- Claim C5: an inaccessible sub-value (array element or struct field)
produces exactly one diagnostic line at its own path, contributes
nothing to the count (the continuation resumes at the same count), and
all remaining siblings are still walked normally. -/
theorem C5_inaccessible_is_local (l1 l2 : List (Option GValue))
    (fs1 fs2 : List GField) (f : GField) (vs1 vs2 : List (Option GValue))
    (path : String) (i r2 c : Nat)
    (hlen : vs1.length = fs1.length) (hart : f.2.1 = false) :
    (walk_elems (l1 ++ none :: l2) path i (l1.length + (r2 + 1)) c =
      ((walk_elems l1 path i l1.length c).1 ++
        Line.inaccElem path (i + l1.length) ::
        (walk_elems l2 path (i + l1.length + 1) r2
          (walk_elems l1 path i l1.length c).2).1,
        (walk_elems l2 path (i + l1.length + 1) r2
          (walk_elems l1 path i l1.length c).2).2)) ∧
    (walk_struct_fields (fs1 ++ f :: fs2) (vs1 ++ none :: vs2) path c =
      ((walk_struct_fields fs1 vs1 path c).1 ++
        Line.inaccField (path ++ "." ++ fieldDisplayName f.1) ::
        (walk_struct_fields fs2 vs2 path
          (walk_struct_fields fs1 vs1 path c).2).1,
        (walk_struct_fields fs2 vs2 path
          (walk_struct_fields fs1 vs1 path c).2).2)) := by
  constructor
  · rw [walk_elems_append l1 (none :: l2) path i (r2 + 1) c,
      walk_elems_cons_none l2 path (i + l1.length) r2
        (walk_elems l1 path i l1.length c).2]
  · rw [walk_struct_fields_append fs1 (f :: fs2) vs1 (none :: vs2) path c hlen,
      walk_struct_fields_cons_none f fs2 vs2 path
        (walk_struct_fields fs1 vs1 path c).2 hart]

/-- Witness for C5: a 3-element array whose middle element is
inaccessible, and a 3-field struct whose middle field is inaccessible;
both diagnostics are emitted in place, both accessible siblings are
reported, and the count is 2 in each case. -/
theorem C5_witness :
    walk_elems [some (exPtrVal 1), none, some (exPtrVal 2)] "s" 0 3 0 =
      ([Line.report "s[0]" "char *" "0x1", Line.inaccElem "s" 1,
        Line.report "s[2]" "char *" "0x2"], 2) ∧
    walk_struct_fields
      [(some "a", false, charPtrTyEx), (some "x", false, charPtrTyEx),
       (some "c", false, charPtrTyEx)]
      [some (exPtrVal 1), none, some (exPtrVal 3)] "s" 0 =
      ([Line.report "s.a" "char *" "0x1", Line.inaccField "s.x",
        Line.report "s.c" "char *" "0x3"], 2) := by
  obtain ⟨h1, h2⟩ := C5_inaccessible_is_local [some (exPtrVal 1)]
    [some (exPtrVal 2)] [(some "a", false, charPtrTyEx)]
    [(some "c", false, charPtrTyEx)] (some "x", false, charPtrTyEx)
    [some (exPtrVal 1)] [some (exPtrVal 3)] "s" 0 1 0 rfl rfl
  simp only [List.cons_append, List.nil_append, List.length_cons,
    List.length_nil] at h1 h2
  constructor
  · rw [show (3 : Nat) = 0 + 1 + (1 + 1) from rfl, h1]
    simp [walk_elems_pos_some, walk_elems_zero, exPtrVal, charPtrTyEx,
      walk_value_ptrTy, typename, strip, fmt_addr, intHex, natHex, natHexChars,
      natHexCharsAux, hexDigitChar, GValue.intRes, GType.tag, GType.display]
    exact ⟨rfl, rfl⟩
  · rw [h2]
    simp [walk_struct_fields_cons_ptr, walk_struct_fields_nil, exPtrVal,
      charPtrTyEx, is_ptr, strip, typename, fmt_addr, intHex, natHex,
      natHexChars, natHexCharsAux, hexDigitChar, fieldDisplayName,
      GValue.intRes, GType.tag, GType.display]

/-- Claim C6: Report Records appear in deterministic depth-first
pre-order — struct fields in declaration order, array indices ascending
from 0.  For `struct S { char *a; char *b[2]; char *c; }` the order is
`a`, `b[0]`, `b[1]`, `c`, with a count of 4, whatever the addresses. -/
theorem C6_report_order (a b0 b1 cc : Int) :
    walk_value (exStructVal a b0 b1 cc) "root" 0 =
      ([Line.report "root.a" "char *" ("0x" ++ intHex a),
        Line.report "root.b[0]" "char *" ("0x" ++ intHex b0),
        Line.report "root.b[1]" "char *" ("0x" ++ intHex b1),
        Line.report "root.c" "char *" ("0x" ++ intHex cc)], 4) := by
  simp [exStructVal, exStructTy, exArrVal, exPtrVal, exbArrTy, charPtrTyEx,
    walk_value_structTy, walk_value_arrayTy, walk_value_ptrTy,
    walk_struct_fields_cons_ptr, walk_struct_fields_cons_agg,
    walk_struct_fields_nil, walk_elems_zero, walk_elems_pos_some,
    is_ptr, is_array, is_struct, is_union, strip, array_len, typename,
    fmt_addr, GValue.intRes, GType.tag, GType.display, fieldDisplayName]
  exact ⟨rfl, rfl⟩

/-- Claim C7: only a failure to evaluate the root expression (or to
parse the argument string) makes `invoke` reject the whole operation,
with a descriptive message and no Report Record or count line (the
error result carries nothing but the message); whenever the root value
is obtained, `invoke` returns the enumerator's complete output — every
failure inside the walk is absorbed into diagnostic lines and cannot
propagate out. -/
theorem C7_root_failure_policy (m : String)
    (pae : String → Except String GValue) (a : String) (rest : List String) :
    invoke (.error m) pae = .error m ∧
    invoke (.ok []) pae = .error "usage: structptrs EXPR" ∧
    invoke (.ok (a :: rest)) pae =
      (match pae (String.intercalate " " (a :: rest)) with
       | .error e => .error ("failed to evaluate EXPR: " ++ e)
       | .ok val => .ok (StructPtrEnumerator.run { count := 0 } val
           (String.intercalate " " (a :: rest)))) := by
  refine ⟨rfl, rfl, ?_⟩
  cases hp : pae (String.intercalate " " (a :: rest)) <;>
    simp [invoke, hp]

/-- Claim C8: the address printed in a pointer's Report Record is
exactly the raw integer the introspection layer reads from the
pointer's own storage (no dereference exists in the model), rendered as
`0x` followed by a lowercase hexadecimal numeral whose value is that
integer. -/
theorem C8_report_addr_format (v : GValue) (path : String) (c : Nat) (n : Int)
    (h : is_ptr v.ty = true) (hi : v.intRes = some n) (hn : 0 ≤ n) :
    walk_value v path c =
      ([Line.report path (typename v.ty) ("0x" ++ natHex n.toNat)], c + 1) ∧
    hexVal (natHex n.toNat) = n.toNat ∧
    (natHex n.toNat).data ≠ [] ∧
    (∀ ch ∈ (natHex n.toNat).data, ch ∈ hexDigitsLower) := by
  have hf : fmt_addr v = "0x" ++ natHex n.toNat := by
    simp only [fmt_addr, hi, intHex]
    rw [if_neg (show ¬n < 0 by omega)]
  obtain ⟨h1, h2, h3⟩ := natHex_sound n.toNat
  refine ⟨?_, h1, h2, h3⟩
  rw [walk_value_ptr v path c h, hf]

/-- Witness for C8 at a `char *` value holding `0x1000`, whose report
renders the address as the lowercase hex numeral `1000`. -/
theorem C8_witness :
    is_ptr (exPtrVal 4096).ty = true ∧
    (exPtrVal 4096).intRes = some 4096 ∧ (0 : Int) ≤ 4096 ∧
    (walk_value (exPtrVal 4096) "q" 2 =
      ([Line.report "q" "char *" ("0x" ++ natHex 4096)], 3) ∧
      hexVal (natHex 4096) = 4096 ∧ natHex 4096 = "1000") := by
  have h := C8_report_addr_format (exPtrVal 4096) "q" 2 4096 rfl rfl (by decide)
  exact ⟨rfl, rfl, by decide, by rw [h.1]; rfl, h.2.1, by decide⟩

/-- Claim C9: `run` resets the enumerator's count at the start, so its
result is independent of any prior state, and invoking it twice on the
same unmodified value with the same path label yields identical lines
and identical counts. -/
theorem C9_run_idempotent (e1 e2 : StructPtrEnumerator) (v : GValue)
    (root : String) :
    e1.run v root = e2.run v root ∧
    ((e1.run v root).1).run v root = e1.run v root := ⟨rfl, rfl⟩

/-- Claim C10: when the range query fails but the array's total size
and the element size are both known and positive, `array_len` computes
the element count as their integer quotient and the walker traverses
the array with that count instead of emitting the unknown-length
diagnostic. -/
theorem C10_sizeof_fallback (tg : Option String) (ds : String) (el : GType)
    (tsz esz : Int) (ir : Option Int) (dsp : String)
    (es fv : List (Option GValue)) (path : String) (c : Nat)
    (hesz : sizeofRes el = some esz) (h1 : 0 < esz) (h2 : 0 < tsz) :
    array_len (GType.arrayTy tg ds (some tsz) el none) = some (tsz / esz) ∧
    walk_value (.mk (.arrayTy tg ds (some tsz) el none) ir dsp es fv) path c =
      walk_elems es path 0 (tsz / esz).toNat c := by
  have hal : array_len (GType.arrayTy tg ds (some tsz) el none) =
      some (tsz / esz) := by
    rw [array_len.eq_def]
    simp [strip, hesz, h1, h2]
  refine ⟨hal, ?_⟩
  rw [walk_value_arrayTy]
  simp only [hal]

/-- Witness for C10: a 16-byte array of 8-byte elements with no range
information walks exactly two elements. -/
theorem C10_witness :
    sizeofRes charPtrTyEx = some 8 ∧ (0 : Int) < 8 ∧ (0 : Int) < 16 ∧
    (array_len (GType.arrayTy none "x" (some 16) charPtrTyEx none) =
      some 2 ∧
    walk_value (.mk (.arrayTy none "x" (some 16) charPtrTyEx none) none ""
        [some (exPtrVal 1), some (exPtrVal 2)] []) "w" 0 =
      walk_elems [some (exPtrVal 1), some (exPtrVal 2)] "w" 0 2 0) := by
  have h := C10_sizeof_fallback none "x" charPtrTyEx 16 8 none ""
    [some (exPtrVal 1), some (exPtrVal 2)] [] "w" 0 rfl (by decide) (by decide)
  exact ⟨rfl, by decide, by decide, h.1, h.2⟩
